import Mathlib

/-!
Verification of the GMS network monitor (gms_monitor.py).

This file shallowly embeds the measurement state, the ping/trace commit
logic, the windowed-statistics engine, the quality classifier, the alert
logic and the path-trace parsers of the monitor, and proves the stated
properties about them.

Modelling conventions:
- Python floats are modelled as exact rationals (all arithmetic performed
  by the program on RTT values is +, -, abs, /, min, max and comparisons).
- Python strings are modelled as lists of characters.
- Localized display strings (the `tr(...)` templates, which live in
  external language files) are out of scope; a summary is modelled as the
  data passed into the template (hop count, max RTT, timed-out hops).
-/

namespace GmsMonitor

/-- `PING_HISTORY_LENGTH = 300` -- how many samples to keep for graphs. -/
def PING_HISTORY_LENGTH : ℕ := 300

/-- `LOSS_HISTORY_LENGTH = 300`. -/
def LOSS_HISTORY_LENGTH : ℕ := 300

/-- `MIN_WINDOW_SIZE = 10` -- minimum number of recent checks. -/
def MIN_WINDOW_SIZE : ℕ := 10

/-- `DEFAULT_WINDOW_SIZE = 60`. -/
def DEFAULT_WINDOW_SIZE : ℕ := 60

/-- `SHORT_WINDOW_SIZE = 10`. -/
def SHORT_WINDOW_SIZE : ℕ := 10

/-- `LONG_WINDOW_SIZE = 600`. -/
def LONG_WINDOW_SIZE : ℕ := 600

/-- The tuple returned by `compute_recent_stats`:
`(recent_loss_pct, recent_avg_ping_ms, recent_count, recent_lost,
  recent_min_ping_ms, recent_max_ping_ms, jitter_ms)`. -/
structure RecentStats where
  loss_pct : ℚ
  avg_ping : Option ℚ
  count : ℕ
  lost : ℕ
  min_ping : Option ℚ
  max_ping : Option ℚ
  jitter_ms : Option ℚ
deriving DecidableEq

/-- The `0.0, None, 0, 0, None, None, None` early-return tuple. -/
def zeroStats : RecentStats :=
  { loss_pct := 0, avg_ping := none, count := 0, lost := 0,
    min_ping := none, max_ping := none, jitter_ms := none }

/-- Python `l[-w:]` for `w ≥ 1`: the last `min w l.length` elements. -/
def lastSlice (l : List α) (w : ℕ) : List α :=
  l.drop (l.length - w)

/-- Embedding of `compute_recent_stats(ping_history, window_size)`
(gms_monitor.py lines 440-486).  The Python list comprehension
`[abs(successes[i] - successes[i-1]) for i in range(1, recent_success)]`
is the list of absolute deltas of adjacent elements, written here as a
`zipWith` of the list with its tail. -/
def compute_recent_stats (ping_history : List (Option ℚ)) (window_size : ℤ) :
    RecentStats :=
  if window_size ≤ 0 then zeroStats
  else
    let recent := lastSlice ping_history window_size.toNat
    let recent_count := recent.length
    if recent_count = 0 then zeroStats
    else
      let successes := recent.filterMap id
      let recent_sent := recent_count
      let recent_success := successes.length
      let recent_lost := recent_sent - recent_success
      let recent_loss_pct : ℚ :=
        if 0 < recent_sent then ((recent_lost : ℚ) / (recent_sent : ℚ)) * 100 else 0
      let recent_avg_ping : Option ℚ :=
        if 0 < recent_success then some (successes.sum / (recent_success : ℚ)) else none
      let recent_min_ping := if 0 < recent_success then successes.min? else none
      let recent_max_ping := if 0 < recent_success then successes.max? else none
      let jitter_ms : Option ℚ :=
        if 1 < recent_success then
          let deltas := List.zipWith (fun a b => |b - a|) successes successes.tail
          some (deltas.sum / (deltas.length : ℚ))
        else none
      { loss_pct := recent_loss_pct, avg_ping := recent_avg_ping,
        count := recent_count, lost := recent_lost,
        min_ping := recent_min_ping, max_ping := recent_max_ping,
        jitter_ms := jitter_ms }

/-- Absolute deltas between consecutive elements, in stored order
(spec-side formulation used by the claim about jitter). -/
def adjacentDeltas : List ℚ → List ℚ
  | a :: b :: rest => |a - b| :: adjacentDeltas (b :: rest)
  | _ => []

/-! ### Path-trace parser (regex machinery of gms_monitor.py lines 230-341)

`hop_re = ^\s*(\d+)\s+` and `ms_re = ([\d.]+)\s*ms` are embedded directly.
Both regexes are backtracking-free on every input: if the greedy run of a
character class is shortened, the next character still belongs to that
class, and it can satisfy neither the following `\s` nor the literal `ms`;
hence taking the maximal run is exactly Python's semantics. -/

/-- Python's `\s` character class (ASCII). -/
def isPySpace (c : Char) : Bool :=
  c = ' ' || c = '\t' || c = '\n' || c = '\r' ||
    c = Char.ofNat 11 || c = Char.ofNat 12

/-- Character class `[\d.]` of `ms_re`. -/
def isDigitOrDot (c : Char) : Bool :=
  c.isDigit || c = '.'

/-- Python `int(...)` on a digit string. -/
def digitsToNat (ds : List Char) : ℕ :=
  ds.foldl (fun n c => 10 * n + (c.toNat - 48)) 0

/-- Match of `hop_re = ^\s*(\d+)\s+` at the start of a line: returns the
hop number (group 1) and the rest of the line after the match end, or
`none` when the line does not start with a hop number. -/
def hopMatch (line : List Char) : Option (ℕ × List Char) :=
  let r1 := line.dropWhile isPySpace
  let ds := r1.takeWhile Char.isDigit
  let r2 := r1.dropWhile Char.isDigit
  let ws := r2.takeWhile isPySpace
  let r3 := r2.dropWhile isPySpace
  if ds.isEmpty || ws.isEmpty then none else some (digitsToNat ds, r3)

/-- Attempt to match `ms_re = ([\d.]+)\s*ms` at the current position:
returns group 1 and the remainder after the match. -/
def msMatchHere (l : List Char) : Option (List Char × List Char) :=
  let run := l.takeWhile isDigitOrDot
  let r1 := l.dropWhile isDigitOrDot
  if run.isEmpty then none
  else
    match r1.dropWhile isPySpace with
    | 'm' :: 's' :: rest => some (run, rest)
    | _ => none

/-- Scan for `ms_re.finditer`: try to match at each position, resuming
after the end of each match.  Fuel is the length of the remaining input;
every step consumes at least one character, so the initial fuel
`l.length` is always sufficient. -/
def msFindAllAux : ℕ → List Char → List (List Char)
  | 0, _ => []
  | _ + 1, [] => []
  | fuel + 1, c :: rest =>
    match msMatchHere (c :: rest) with
    | some (g, after) => g :: msFindAllAux fuel after
    | none => msFindAllAux fuel rest

/-- All group-1 captures of `ms_re.finditer(line)`. -/
def msFindAll (l : List Char) : List (List Char) :=
  msFindAllAux l.length l

/-- Python `float(...)` applied to a capture of `[\d.]+`: defined (no
`ValueError`) iff the string has at least one digit and at most one dot;
the value is integer part plus fractional part. -/
def parseFloatQ (s : List Char) : Option ℚ :=
  if s.any Char.isDigit && decide (s.countP (fun c => c = '.') ≤ 1) then
    let intPart := s.takeWhile (fun c => c ≠ '.')
    let fracPart := (s.dropWhile (fun c => c ≠ '.')).drop 1
    some ((digitsToNat intPart : ℚ) + (digitsToNat fracPart : ℚ) / ((10 : ℚ) ^ fracPart.length))
  else none

/-- Python `str.strip()`. -/
def stripPy (s : List Char) : List Char :=
  ((s.dropWhile isPySpace).reverse.dropWhile isPySpace).reverse

/-- Python `s.split(c, 1)` when `c` occurs in `s`: the parts before and
after the first occurrence; `none` when `c` does not occur. -/
def splitOnceChar (c : Char) (s : List Char) : Option (List Char × List Char) :=
  let pre := s.takeWhile (fun x => x ≠ c)
  match s.dropWhile (fun x => x ≠ c) with
  | [] => none
  | _ :: rest => some (pre, rest)

/-- Python substring test `needle in hay`. -/
def containsSub (needle hay : List Char) : Bool :=
  match hay with
  | [] => needle.isEmpty
  | _ :: t => needle.isPrefixOf hay || containsSub needle t

/-- The data content of the final traceroute summary line built by
`build_traceroute_summary` (lines 230-276): total hop count, max observed
RTT, and the hop numbers that timed out.  The localized template strings
(`TRACE_FINAL_SUMMARY` etc., loaded from external language files) are out
of scope; this structure holds exactly the values substituted into them. -/
structure TraceSummaryData where
  hops : ℕ
  max_ms : ℚ
  timeout_hops : List ℕ
deriving DecidableEq

/-- The accumulating loop of `build_traceroute_summary` over the lines it
considers: collects `hop_numbers`, `timeout_hops`, and the running
maximum of all parsed `ms` values. -/
def summaryScan (ls : List (List Char)) : List ℕ × List ℕ × Option ℚ :=
  ls.foldl
    (fun acc line =>
      match hopMatch line with
      | none => acc
      | some (hop, _) =>
        let hop_numbers := acc.1 ++ [hop]
        let timeout_hops := if line.contains '*' then acc.2.1 ++ [hop] else acc.2.1
        let max_ms :=
          (msFindAll line).foldl
            (fun m g =>
              match parseFloatQ g with
              | none => m
              | some v =>
                match m with
                | none => some v
                | some cur => if v > cur then some v else some cur)
            acc.2.2
        (hop_numbers, timeout_hops, max_ms))
    ([], [], none)

/-- Embedding of `build_traceroute_summary(lines)` (lines 230-276).  Note
that the loop runs over `lines[1:]` ("skip potential header"): the first
line never contributes hops, timeouts or RTT values.  `max(hop_numbers)`
on a non-empty list of naturals is written as a fold from 0. -/
def build_traceroute_summary (lines : List (List Char)) : Option TraceSummaryData :=
  if lines.isEmpty then none
  else
    let scanned := summaryScan lines.tail
    if scanned.1.isEmpty then none
    else
      some { hops := scanned.1.foldl Nat.max 0,
             max_ms := (scanned.2.2).getD 0,
             timeout_hops := scanned.2.1 }

/-- One parsed row of `build_traceroute_table` (lines 279-341): hop
number, the `host (ip)` display label, and the RTT samples of that hop in
order of appearance (empty = the row renders as "timeout").  The header
row and the numeric formatting of min/avg/max are display-only rendering
and are not part of the data. -/
structure HopRow where
  hop : ℕ
  host_ip : List Char
  rtts : List ℚ
deriving DecidableEq

/-- Per-line parsing step of `build_traceroute_table`. -/
def parseHopRow (line : List Char) : Option HopRow :=
  match hopMatch line with
  | none => none
  | some (hop, afterHop) =>
    let rest := stripPy afterHop
    let hostIp : List Char × List Char :=
      if rest.contains '(' && rest.contains ')' then
        match splitOnceChar '(' rest with
        | some (before, after) =>
          let host := let h := stripPy before; if h.isEmpty then ['?'] else h
          let ip :=
            match splitOnceChar ')' after with
            | some (pre, _) => stripPy pre
            | none => stripPy after
          (host, ip)
        | none => (['?'], [])
      else
        let firstTok := (rest.dropWhile isPySpace).takeWhile (fun c => ¬ isPySpace c)
        if firstTok.isEmpty then (['?'], []) else (firstTok, [])
    let host := hostIp.1
    let ip := hostIp.2
    let host_ip :=
      if ¬ ip.isEmpty && ¬ containsSub ip host then
        host ++ (' ' :: '(' :: ip) ++ [')']
      else host
    let rtts := (msFindAll line).filterMap parseFloatQ
    some { hop := hop, host_ip := host_ip, rtts := rtts }

/-- Embedding of the hop rows produced by `build_traceroute_table`
(lines 279-341): one entry per line that matches `hop_re`, in order. -/
def build_traceroute_table (lines : List (List Char)) : List HopRow :=
  lines.filterMap parseHopRow

/-- The two trace-output lines of the specification scenario. -/
def exTraceLines : List (List Char) :=
  ["1  10.0.0.1 (10.0.0.1)  1.2 ms  1.1 ms".toList, "2  * * *".toList]

/-! ### Measurement state and its operations -/

/-- The fields of `MonitorState.__init__` (lines 99-140).  The Python
`deque(maxlen=...)` histories are lists whose bounded-append operation is
`dequeAppend` below; timestamps (`time.time()` values) are rationals. -/
structure MonitorState where
  target_host : List Char
  running : Bool
  monitoring : Bool
  show_help : Bool
  show_traceroute_full : Bool
  traceroute_scroll : ℤ
  show_controls : Bool
  total_sent : ℕ
  total_recv : ℕ
  last_ping_ms : Option ℚ
  total_success : ℕ
  success_rtt_sum : ℚ
  min_rtt_all : Option ℚ
  max_rtt_all : Option ℚ
  last_success_rtt_all : Option ℚ
  jitter_sum_all : ℚ
  jitter_count_all : ℕ
  ping_history : List (Option ℚ)
  loss_history : List ℚ
  window_size : ℤ
  traceroute_lines : List (List Char)
  traceroute_running : Bool
  last_traceroute_error : Option (List Char)
  traceroute_summary : Option TraceSummaryData
  last_traceroute_ts : Option ℚ
deriving DecidableEq

/-- `MonitorState(target_host)` construction (lines 100-140). -/
def initState (target : List Char) : MonitorState :=
  { target_host := target
    running := true
    monitoring := true
    show_help := false
    show_traceroute_full := false
    traceroute_scroll := 0
    show_controls := false
    total_sent := 0
    total_recv := 0
    last_ping_ms := none
    total_success := 0
    success_rtt_sum := 0
    min_rtt_all := none
    max_rtt_all := none
    last_success_rtt_all := none
    jitter_sum_all := 0
    jitter_count_all := 0
    ping_history := []
    loss_history := []
    window_size := (DEFAULT_WINDOW_SIZE : ℤ)
    traceroute_lines := []
    traceroute_running := false
    last_traceroute_error := none
    traceroute_summary := none
    last_traceroute_ts := none }

/-- `deque(maxlen=cap).append(x)`: append on the right; when the deque is
full the oldest (leftmost) entry is discarded.  For `l.length ≤ cap` the
drop count is `l.length + 1 - cap` (`0` while below capacity). -/
def dequeAppend (cap : ℕ) (l : List α) (x : α) : List α :=
  let grown := l ++ [x]
  grown.drop (grown.length - cap)

/-- The outcome of `run_ping` (lines 143-171) as consumed by the commit
block of `ping_worker`: `(success, rtt)` with `rtt = None` on failure and
also on "success but no RTT parsed". -/
inductive PingOutcome where
  | failure
  | successNoRtt
  | success (rtt : ℚ)
deriving DecidableEq

/-- The `success` boolean of the outcome. -/
def pingOutcomeSuccess : PingOutcome → Bool
  | .failure => false
  | _ => true

/-- The `rtt` component of the outcome. -/
def pingOutcomeRtt : PingOutcome → Option ℚ
  | .success r => some r
  | _ => none

/-- The commit block of `ping_worker` executed under the lock after one
probe (lines 187-221): counters, lifetime RTT stats, jitter accumulator,
`last_ping_ms`, and the two history appends.  `overall_loss_pct` is
computed from the already-incremented counters, exactly as in the source
(lines 215-217). -/
def pingCommit (s : MonitorState) (o : PingOutcome) : MonitorState :=
  let success := pingOutcomeSuccess o
  let rtt := pingOutcomeRtt o
  let s1 : MonitorState := { s with total_sent := s.total_sent + 1 }
  let s2 : MonitorState :=
    if success then
      let sa : MonitorState :=
        { s1 with total_recv := s1.total_recv + 1, last_ping_ms := rtt }
      match rtt with
      | none => sa
      | some r =>
        let sb : MonitorState :=
          if sa.total_success = 0 then
            { sa with min_rtt_all := some r, max_rtt_all := some r }
          else
            let newMin :=
              match sa.min_rtt_all with
              | none => some r
              | some m => if r < m then some r else some m
            let newMax :=
              match sa.max_rtt_all with
              | none => some r
              | some m => if r > m then some r else some m
            { sa with min_rtt_all := newMin, max_rtt_all := newMax }
        let sc : MonitorState :=
          match sb.last_success_rtt_all with
          | none => sb
          | some prev =>
            { sb with jitter_sum_all := sb.jitter_sum_all + |r - prev|,
                      jitter_count_all := sb.jitter_count_all + 1 }
        { sc with last_success_rtt_all := some r,
                  success_rtt_sum := sc.success_rtt_sum + r,
                  total_success := sc.total_success + 1 }
    else
      { s1 with last_ping_ms := none }
  let overall_loss_pct : ℚ :=
    if s2.total_sent = 0 then 0
    else (1 - (s2.total_recv : ℚ) / (s2.total_sent : ℚ)) * 100
  { s2 with
      ping_history :=
        dequeAppend PING_HISTORY_LENGTH s2.ping_history (if success then rtt else none),
      loss_history := dequeAppend LOSS_HISTORY_LENGTH s2.loss_history overall_loss_pct }

/-- The guarded entry block of `traceroute_worker` (lines 349-358), with
`t` standing for the `time.time()` start timestamp.  When a session is
already running the function returns immediately without touching the
state; the remainder of the worker is skipped entirely. -/
def tracerouteEntry (t : ℚ) (s : MonitorState) : MonitorState :=
  if s.traceroute_running then s
  else
    { s with traceroute_running := true
             last_traceroute_error := none
             traceroute_lines := []
             traceroute_summary := none
             last_traceroute_ts := some t }

/-- The state-mutating operations of the program: one per key handler of
`main` (lines 893-959), plus the ping-cycle commit and the state commits
of `traceroute_worker` (streaming a line, finishing, and launch failure). -/
inductive Command where
  | pingCycle (o : PingOutcome)
  | quit
  | pause
  | resume
  | traceRequest (t : ℚ)
  | toggleHelp
  | toggleFull
  | scrollUp
  | scrollDown
  | toggleControls
  | windowInc
  | windowDec
  | traceStream (line : List Char)
  | traceFinish (lines : List (List Char)) (err : Option (List Char)) (t : ℚ)
  | traceLaunchFail (msg : List Char)

/-- State transition of each operation, mirroring the corresponding
source blocks: `q`/`p`/`r`/`t`/`h`/`f`/arrows/`k`/`+`/`-` handlers of
`main`, and the lock-protected writes of the workers. -/
def applyCommand (c : Command) (s : MonitorState) : MonitorState :=
  match c with
  | .pingCycle o => pingCommit s o
  | .quit => { s with running := false }
  | .pause => { s with monitoring := false }
  | .resume => { s with monitoring := true }
  | .traceRequest t => tracerouteEntry t s
  | .toggleHelp => { s with show_help := ¬ s.show_help }
  | .toggleFull =>
    { s with show_traceroute_full := ¬ s.show_traceroute_full, traceroute_scroll := 0 }
  | .scrollUp => { s with traceroute_scroll := max 0 (s.traceroute_scroll - 1) }
  | .scrollDown => { s with traceroute_scroll := s.traceroute_scroll + 1 }
  | .toggleControls => { s with show_controls := ¬ s.show_controls }
  | .windowInc =>
    { s with window_size := min (s.window_size + 10) (PING_HISTORY_LENGTH : ℤ) }
  | .windowDec =>
    let new_size := s.window_size - 10
    { s with window_size :=
        if new_size < (MIN_WINDOW_SIZE : ℤ) then (MIN_WINDOW_SIZE : ℤ) else new_size }
  | .traceStream line => { s with traceroute_lines := s.traceroute_lines ++ [line] }
  | .traceFinish lines err t =>
    { s with traceroute_lines := lines
             last_traceroute_error := err
             traceroute_running := false
             traceroute_summary :=
               if err = none then build_traceroute_summary lines else none
             last_traceroute_ts := some t }
  | .traceLaunchFail msg =>
    { s with traceroute_lines := []
             last_traceroute_error := some msg
             traceroute_running := false }

/-! ### Quality classification and alerts (draw_ui, lines 604-618 and 755-776) -/

/-- The quality labels assigned by `draw_ui`. -/
inductive Quality where
  | unknown
  | excellent
  | good
  | fair
  | poor
deriving DecidableEq

/-- The `jitter_ms is None or jitter_ms < 5` disjunct of the EXCELLENT
threshold. -/
def jitterOkForExcellent (jitter : Option ℚ) : Bool :=
  match jitter with
  | none => true
  | some j => decide (j < 5)

/-- The quality-derivation block of `draw_ui` (lines 604-618), a function
of the windowed stats and the window size.  Python's floor division
`window_size // 2` is `Int.fdiv`. -/
def classifyQuality (recent_count : ℕ) (window_size : ℤ) (recent_loss_pct : ℚ)
    (recent_avg_ping : Option ℚ) (jitter_ms : Option ℚ) : Quality :=
  if decide ((recent_count : ℤ) ≥ max 20 (Int.fdiv window_size 2)) then
    match recent_avg_ping with
    | none => Quality.unknown
    | some a =>
      if decide (recent_loss_pct < 1) && decide (a < 40) && jitterOkForExcellent jitter_ms then
        Quality.excellent
      else if decide (recent_loss_pct < 2) && decide (a < 80) then Quality.good
      else if decide (recent_loss_pct < 5) && decide (a < 150) then Quality.fair
      else Quality.poor
  else Quality.unknown

/-- The alerts surfaced by the spike indicator of `draw_ui`. -/
inductive Alert where
  | delaySpike
  | highLoss
deriving DecidableEq

/-- `short_count >= max(5, SHORT_WINDOW_SIZE // 2)` -- the short window
is adequately populated. -/
def shortPopulated (short_count : ℕ) : Bool :=
  decide (short_count ≥ max 5 (SHORT_WINDOW_SIZE / 2))

/-- The delay-spike condition of lines 762-768: all five conjuncts of the
Python `if`, with the two `is not None` tests realized by the match. -/
def spikeFires (short_count : ℕ) (short_avg_ping short_max_ping : Option ℚ) : Bool :=
  match short_avg_ping, short_max_ping with
  | some a, some m =>
    shortPopulated short_count && decide (m > 3 * a) && decide (m - a > 100)
  | _, _ => false

/-- The alert selection of lines 755-776: the spike branch, else the
high-loss branch (`elif`), else no alert. -/
def computeAlert (short_count : ℕ) (short_avg_ping short_max_ping : Option ℚ)
    (short_loss_pct : ℚ) : Option Alert :=
  if spikeFires short_count short_avg_ping short_max_ping then some Alert.delaySpike
  else if shortPopulated short_count && decide (short_loss_pct ≥ 10) then some Alert.highLoss
  else none

/-- The alert computed by `draw_ui` from the ping history: the stats are
taken over the short fixed window (`SHORT_WINDOW_SIZE = 10` samples,
lines 715-717). -/
def shortWindowAlert (ping_history : List (Option ℚ)) : Option Alert :=
  let st := compute_recent_stats ping_history (SHORT_WINDOW_SIZE : ℤ)
  computeAlert st.count st.avg_ping st.max_ping st.loss_pct

/-- A concrete state in which a trace session is already running. -/
def exRunningState : MonitorState :=
  { initState [] with traceroute_running := true }

/-- A concrete state whose last latency sample is present. -/
def exLastPingState : MonitorState :=
  { initState [] with last_ping_ms := some 5 }

/-- The `overall_loss_pct` value appended to `loss_history` by a ping
cycle, expressed in terms of the pre-commit state: the counters have
already been incremented when it is computed (lines 215-217). -/
def pingLossValue (s : MonitorState) (o : PingOutcome) : ℚ :=
  if s.total_sent + 1 = 0 then 0
  else
    (1 - ((s.total_recv + (if pingOutcomeSuccess o then 1 else 0) : ℕ) : ℚ) /
      ((s.total_sent + 1 : ℕ) : ℚ)) * 100

/-- A state whose history buffers are exactly full. -/
def exFullState : MonitorState :=
  { initState [] with
      ping_history := List.replicate PING_HISTORY_LENGTH none,
      loss_history := List.replicate LOSS_HISTORY_LENGTH 0 }

/-! ### Helper lemmas -/

lemma lastSlice_length (l : List α) (w : ℕ) :
    (lastSlice l w).length = min w l.length := by
  simp [lastSlice]
  omega

lemma filterMap_id_length_add_countP (l : List (Option ℚ)) :
    (l.filterMap id).length + l.countP (fun x => x.isNone) = l.length := by
  induction l with
  | nil => simp
  | cons a t ih =>
    cases a <;> simp [List.countP_cons] <;> omega

lemma dequeAppend_length (cap : ℕ) (l : List α) (x : α) :
    (dequeAppend cap l x).length = min cap (l.length + 1) := by
  simp [dequeAppend]
  omega

lemma dequeAppend_full (cap : ℕ) (l : List α) (x : α)
    (h : l.length = cap) (hpos : 0 < cap) :
    dequeAppend cap l x = l.tail ++ [x] := by
  have h1 : l.length + 1 - cap = 1 := by omega
  simp only [dequeAppend, List.length_append, List.length_singleton, h1]
  rw [List.drop_append_eq_append_drop]
  have h2 : 1 - l.length = 0 := by omega
  simp [h2, List.drop_one]

/-! ### Claims -/

/-- Claim C5: invoking the trace sampler while a session is already
running is a no-op that leaves every field of the measurement state
unchanged (in particular `traceroute_lines`, `last_traceroute_error`,
`traceroute_summary`, `last_traceroute_ts` and `traceroute_running`). -/
theorem claim_C5_single_flight (s : MonitorState) (t : ℚ)
    (h : s.traceroute_running = true) :
    tracerouteEntry t s = s := by
  simp [tracerouteEntry, h]

theorem claim_C5_witness :
    exRunningState.traceroute_running = true ∧
      tracerouteEntry 0 exRunningState = exRunningState :=
  ⟨rfl, claim_C5_single_flight exRunningState 0 rfl⟩

/-- Claim C3 counterexample: a SuccessNoRtt outcome DOES set
`lastLatencyMs` to `None` (the code stores the parsed `rtt`, which is
`None`, on every successful probe), contradicting the claim that it
becomes `None` only for Failure: starting from a state whose last sample
is `5`, a SuccessNoRtt cycle ends with `lastLatencyMs = None`. -/
theorem claim_C3_counterexample :
    exLastPingState.last_ping_ms = some 5 ∧
      (pingCommit exLastPingState PingOutcome.successNoRtt).last_ping_ms = none :=
  ⟨rfl, rfl⟩

/-- Claim C3 (amended): on Failure and on SuccessNoRtt alike,
`lastLatencyMs` becomes `None` (it is set to the probe's parsed RTT);
on SuccessNoRtt `totalReceived` is still incremented, and the sample
contributes nothing to the lifetime min/max/sum/jitter accumulators. -/
theorem claim_C3_amended (s : MonitorState) :
    (pingCommit s PingOutcome.failure).last_ping_ms = none ∧
    (pingCommit s PingOutcome.successNoRtt).last_ping_ms = none ∧
    (pingCommit s PingOutcome.successNoRtt).total_recv = s.total_recv + 1 ∧
    (pingCommit s PingOutcome.successNoRtt).min_rtt_all = s.min_rtt_all ∧
    (pingCommit s PingOutcome.successNoRtt).max_rtt_all = s.max_rtt_all ∧
    (pingCommit s PingOutcome.successNoRtt).success_rtt_sum = s.success_rtt_sum ∧
    (pingCommit s PingOutcome.successNoRtt).total_success = s.total_success ∧
    (pingCommit s PingOutcome.successNoRtt).jitter_sum_all = s.jitter_sum_all ∧
    (pingCommit s PingOutcome.successNoRtt).jitter_count_all = s.jitter_count_all ∧
    (pingCommit s PingOutcome.successNoRtt).last_success_rtt_all = s.last_success_rtt_all :=
  ⟨rfl, rfl, rfl, rfl, rfl, rfl, rfl, rfl, rfl, rfl⟩

/-- Claim C2 counterexample: on the scenario lines the summary's maximum
RTT is `0`, not `1.2`: `build_traceroute_summary` iterates `lines[1:]`
("skip potential header"), so the RTT samples on the first line (hop 1)
never reach the summary's maximum. -/
theorem claim_C2_counterexample :
    build_traceroute_summary exTraceLines =
      some { hops := 2, max_ms := 0, timeout_hops := [2] } ∧
    ¬ (∃ d, build_traceroute_summary exTraceLines = some d ∧ d.max_ms = 6 / 5) := by
  constructor
  · decide
  · rintro ⟨d, hd, hmax⟩
    have h : build_traceroute_summary exTraceLines =
        some { hops := 2, max_ms := 0, timeout_hops := [2] } := by decide
    rw [h] at hd
    cases hd
    norm_num at hmax

/-- Claim C2 (amended): the hop parser yields hop 1 with RTT samples
`[1.2, 1.1]` and hop 2 as a timeout (no samples). `build_traceroute_summary`,
which skips the first line as a potential header, reports 2 total hops,
hop 2 as the only timed-out hop, and a maximum RTT of `0`: no RTT sample
occurs on the lines it considers (all but the first). -/
theorem claim_C2_amended :
    build_traceroute_table exTraceLines =
      [ { hop := 1, host_ip := "10.0.0.1".toList, rtts := [6 / 5, 11 / 10] },
        { hop := 2, host_ip := "*".toList, rtts := [] } ] ∧
    build_traceroute_summary exTraceLines =
      some { hops := 2, max_ms := 0, timeout_hops := [2] } := by
  constructor
  · have h : build_traceroute_table exTraceLines =
        [ { hop := 1, host_ip := "10.0.0.1".toList,
            rtts := [(1 : ℚ) + (2 : ℚ) / ((10 : ℚ) ^ (1 : ℕ)),
                     (1 : ℚ) + (1 : ℚ) / ((10 : ℚ) ^ (1 : ℕ))] },
          { hop := 2, host_ip := "*".toList, rtts := [] } ] := by rfl
    rw [h]
    norm_num
  · decide


lemma crs_of_empty (history : List (Option ℚ)) (W : ℤ) (hW : 0 < W)
    (hs : lastSlice history W.toNat = []) :
    compute_recent_stats history W = zeroStats := by
  simp [compute_recent_stats, not_le.mpr hW, hs]

lemma crs_of_nonempty (history : List (Option ℚ)) (W : ℤ) (hW : 0 < W)
    (hne : (lastSlice history W.toNat).length ≠ 0) :
    compute_recent_stats history W =
      { loss_pct :=
          ((((lastSlice history W.toNat).length -
              ((lastSlice history W.toNat).filterMap id).length : ℕ) : ℚ) /
            ((lastSlice history W.toNat).length : ℚ)) * 100,
        avg_ping :=
          if 0 < ((lastSlice history W.toNat).filterMap id).length then
            some (((lastSlice history W.toNat).filterMap id).sum /
              (((lastSlice history W.toNat).filterMap id).length : ℚ))
          else none,
        count := (lastSlice history W.toNat).length,
        lost := (lastSlice history W.toNat).length -
          ((lastSlice history W.toNat).filterMap id).length,
        min_ping :=
          if 0 < ((lastSlice history W.toNat).filterMap id).length then
            ((lastSlice history W.toNat).filterMap id).min?
          else none,
        max_ping :=
          if 0 < ((lastSlice history W.toNat).filterMap id).length then
            ((lastSlice history W.toNat).filterMap id).max?
          else none,
        jitter_ms :=
          if 1 < ((lastSlice history W.toNat).filterMap id).length then
            some ((List.zipWith (fun a b => |b - a|)
                     ((lastSlice history W.toNat).filterMap id)
                     ((lastSlice history W.toNat).filterMap id).tail).sum /
                  ((List.zipWith (fun a b => |b - a|)
                     ((lastSlice history W.toNat).filterMap id)
                     ((lastSlice history W.toNat).filterMap id).tail).length : ℚ))
          else none } := by
  simp [compute_recent_stats, not_le.mpr hW, hne, Nat.pos_of_ne_zero hne]


lemma adjacentDeltas_eq (l : List ℚ) :
    adjacentDeltas l = List.zipWith (fun a b => |b - a|) l l.tail := by
  induction l with
  | nil => rfl
  | cons a t ih =>
    cases t with
    | nil => rfl
    | cons b r => simp [adjacentDeltas, ih, abs_sub_comm]

/-- Claim C1: for every latency history and window size W > 0,
`compute_recent_stats` over the most recent `min(W, len(history))`
entries returns count = number of entries considered, lost = number of
absence markers, lossPct = 100 * lost / count (0 if count = 0),
avg/min/max over present values only (None if no present values), and
jitter = mean absolute delta between consecutive present values in
chronological order (None if fewer than 2 present values); in particular
the spec scenario `[20, None, 22, 21, None, 19]` with W = 6 gives
loss = 2/6, avg = 20.5, min = 19, max = 22, jitter = 5/3. -/
theorem claim_C1_windowed_stats (history : List (Option ℚ)) (W : ℤ) (hW : 0 < W) :
    (compute_recent_stats history W).count = min W.toNat history.length ∧
    (compute_recent_stats history W).lost =
      (lastSlice history W.toNat).countP (fun x => x.isNone) ∧
    (compute_recent_stats history W).loss_pct =
      (if (compute_recent_stats history W).count = 0 then 0
       else 100 * ((compute_recent_stats history W).lost : ℚ) /
         ((compute_recent_stats history W).count : ℚ)) ∧
    (compute_recent_stats history W).avg_ping =
      (if ((lastSlice history W.toNat).filterMap id) = [] then none
       else some (((lastSlice history W.toNat).filterMap id).sum /
         (((lastSlice history W.toNat).filterMap id).length : ℚ))) ∧
    (compute_recent_stats history W).min_ping =
      ((lastSlice history W.toNat).filterMap id).min? ∧
    (compute_recent_stats history W).max_ping =
      ((lastSlice history W.toNat).filterMap id).max? ∧
    (compute_recent_stats history W).jitter_ms =
      (if ((lastSlice history W.toNat).filterMap id).length < 2 then none
       else some ((adjacentDeltas ((lastSlice history W.toNat).filterMap id)).sum /
         ((adjacentDeltas ((lastSlice history W.toNat).filterMap id)).length : ℚ))) ∧
    compute_recent_stats [some 20, none, some 22, some 21, none, some 19] 6 =
      { loss_pct := 100 / 3, avg_ping := some (41 / 2), count := 6, lost := 2,
        min_ping := some 19, max_ping := some 22, jitter_ms := some (5 / 3) } := by
  have hexample :
      compute_recent_stats [some 20, none, some 22, some 21, none, some 19] 6 =
        { loss_pct := 100 / 3, avg_ping := some (41 / 2), count := 6, lost := 2,
          min_ping := some 19, max_ping := some 22, jitter_ms := some (5 / 3) } := by
    simp [compute_recent_stats, lastSlice, List.min?, List.max?]
    norm_num
  by_cases hs : (lastSlice history W.toNat).length = 0
  · have hnil : lastSlice history W.toNat = [] := List.length_eq_zero.mp hs
    have hz := crs_of_empty history W hW hnil
    have hmin : min W.toNat history.length = 0 := by
      rw [← lastSlice_length history W.toNat, hs]
    rw [hz, hnil]
    refine ⟨by simp [zeroStats, hmin], by simp [zeroStats], by simp [zeroStats],
      by simp [zeroStats], by simp [zeroStats, List.min?], by simp [zeroStats, List.max?],
      by simp [zeroStats, adjacentDeltas], hexample⟩
  · have he := crs_of_nonempty history W hW hs
    have hcnt := filterMap_id_length_add_countP (lastSlice history W.toNat)
    refine ⟨?_, ?_, ?_, ?_, ?_, ?_, ?_, hexample⟩
    · simp only [he]
      exact lastSlice_length history W.toNat
    · simp only [he]
      omega
    · simp only [he, if_neg hs]
      ring
    · simp only [he]
      by_cases hp : (lastSlice history W.toNat).filterMap id = []
      · simp [hp]
      · simp [hp, List.length_pos.mpr hp]
    · simp only [he]
      by_cases hp : (lastSlice history W.toNat).filterMap id = []
      · simp [hp]
      · simp [List.length_pos.mpr hp]
    · simp only [he]
      by_cases hp : (lastSlice history W.toNat).filterMap id = []
      · simp [hp]
      · simp [List.length_pos.mpr hp]
    · simp only [he, adjacentDeltas_eq]
      by_cases h1 : 1 < ((lastSlice history W.toNat).filterMap id).length
      · have h2 : ¬ ((lastSlice history W.toNat).filterMap id).length < 2 := by omega
        simp [h1, h2]
      · have h2 : ((lastSlice history W.toNat).filterMap id).length < 2 := by omega
        simp [h1, h2]


/-- Claim C10: `compute_recent_stats` is a total function with no
division by zero: for window size <= 0 or an empty considered slice it
returns exactly `(0.0, None, 0, 0, None, None, None)`; every division it
performs has a divisor proven positive by the preceding guard (the count
when the loss percentage is computed, the number of present values when
the average is computed, the number of deltas when the jitter is
computed); and the returned count never exceeds
`min(window_size, len(history))` when the window size is positive. -/
theorem claim_C10_total (history : List (Option ℚ)) (W : ℤ) :
    (W ≤ 0 → compute_recent_stats history W = zeroStats) ∧
    (lastSlice history W.toNat = [] → compute_recent_stats history W = zeroStats) ∧
    (0 < W → (compute_recent_stats history W).count ≤ min W.toNat history.length) ∧
    (0 < W → lastSlice history W.toNat ≠ [] →
       0 < (compute_recent_stats history W).count) ∧
    ((compute_recent_stats history W).avg_ping.isSome →
       0 < ((lastSlice history W.toNat).filterMap id).length) ∧
    ((compute_recent_stats history W).jitter_ms.isSome →
       0 < (List.zipWith (fun a b => |b - a|)
              ((lastSlice history W.toNat).filterMap id)
              ((lastSlice history W.toNat).filterMap id).tail).length) := by
  refine ⟨?_, ?_, ?_, ?_, ?_, ?_⟩
  · intro h
    simp [compute_recent_stats, h]
  · intro h
    by_cases hw : W ≤ 0
    · simp [compute_recent_stats, hw]
    · exact crs_of_empty history W (by omega) h
  · intro hW
    by_cases hs : (lastSlice history W.toNat).length = 0
    · rw [crs_of_empty history W hW (List.length_eq_zero.mp hs)]
      simp [zeroStats]
    · simp only [crs_of_nonempty history W hW hs]
      exact le_of_eq (lastSlice_length history W.toNat)
  · intro hW hne
    have hs : (lastSlice history W.toNat).length ≠ 0 := by
      simpa [List.length_eq_zero] using hne
    simp only [crs_of_nonempty history W hW hs]
    omega
  · intro hA
    by_cases hw : W ≤ 0
    · rw [(by simp [compute_recent_stats, hw] :
          compute_recent_stats history W = zeroStats)] at hA
      simp [zeroStats] at hA
    · by_cases hs : (lastSlice history W.toNat).length = 0
      · rw [crs_of_empty history W (by omega) (List.length_eq_zero.mp hs)] at hA
        simp [zeroStats] at hA
      · rw [crs_of_nonempty history W (by omega) hs] at hA
        by_cases hp : 0 < ((lastSlice history W.toNat).filterMap id).length
        · exact hp
        · simp [hp] at hA
  · intro hA
    by_cases hw : W ≤ 0
    · rw [(by simp [compute_recent_stats, hw] :
          compute_recent_stats history W = zeroStats)] at hA
      simp [zeroStats] at hA
    · by_cases hs : (lastSlice history W.toNat).length = 0
      · rw [crs_of_empty history W (by omega) (List.length_eq_zero.mp hs)] at hA
        simp [zeroStats] at hA
      · rw [crs_of_nonempty history W (by omega) hs] at hA
        by_cases hp : 1 < ((lastSlice history W.toNat).filterMap id).length
        · simp [List.length_zipWith, List.length_tail]
          omega
        · simp [hp] at hA



theorem claim_C1_witness :
    (compute_recent_stats [some 20, none, some 22, some 21, none, some 19] 6).count =
      min (6 : ℤ).toNat
        ([some 20, none, some 22, some 21, none, some 19] : List (Option ℚ)).length ∧
    compute_recent_stats [some 20, none, some 22, some 21, none, some 19] 6 =
      { loss_pct := 100 / 3, avg_ping := some (41 / 2), count := 6, lost := 2,
        min_ping := some 19, max_ping := some 22, jitter_ms := some (5 / 3) } :=
  ⟨(claim_C1_windowed_stats [some 20, none, some 22, some 21, none, some 19] 6 (by decide)).1,
   (claim_C1_windowed_stats [some 20, none, some 22, some 21, none, some 19] 6
      (by decide)).2.2.2.2.2.2.2⟩

theorem claim_C10_witness :
    compute_recent_stats [] 0 = zeroStats ∧
    (compute_recent_stats [some 1] 1).count ≤
      min (1 : ℤ).toNat ([some 1] : List (Option ℚ)).length :=
  ⟨(claim_C10_total [] 0).1 (by decide),
   (claim_C10_total [some 1] 1).2.2.1 (by decide)⟩

/-- Claim C4: quality classification is UNKNOWN whenever
`count < max(20, windowSize // 2)` or no windowed average RTT exists;
when evaluated, the thresholds are checked in order with strict
comparisons: EXCELLENT holds exactly when loss < 1, avg < 40 and the
jitter disjunct holds, so a loss of exactly 1.0 or an average of exactly
40 never classifies as EXCELLENT. -/
theorem claim_C4_quality (count : ℕ) (ws : ℤ) (loss : ℚ) (avg jitter : Option ℚ) :
    ((count : ℤ) < max 20 (Int.fdiv ws 2) →
       classifyQuality count ws loss avg jitter = Quality.unknown) ∧
    (avg = none → classifyQuality count ws loss avg jitter = Quality.unknown) ∧
    (∀ a, avg = some a → (count : ℤ) ≥ max 20 (Int.fdiv ws 2) →
       (classifyQuality count ws loss avg jitter = Quality.excellent ↔
          loss < 1 ∧ a < 40 ∧ jitterOkForExcellent jitter = true)) ∧
    (loss = 1 → classifyQuality count ws loss avg jitter ≠ Quality.excellent) ∧
    (avg = some 40 → classifyQuality count ws loss avg jitter ≠ Quality.excellent) := by
  refine ⟨?_, ?_, ?_, ?_, ?_⟩
  · intro h
    simp [classifyQuality, not_le.mpr h]
  · intro h
    subst h
    simp only [classifyQuality]
    split <;> rfl
  · intro a ha hge
    subst ha
    have hcond : decide ((count : ℤ) ≥ max 20 (Int.fdiv ws 2)) = true := decide_eq_true hge
    simp only [classifyQuality, hcond, if_true]
    by_cases hb : (decide (loss < 1) && decide (a < 40) && jitterOkForExcellent jitter) = true
    · have hb' : loss < 1 ∧ a < 40 ∧ jitterOkForExcellent jitter = true := by
        simpa [and_assoc] using hb
      simp only [if_pos hb]
      simp [hb']
    · have hb' : ¬ (loss < 1 ∧ a < 40 ∧ jitterOkForExcellent jitter = true) := by
        intro hc
        exact hb (by simp [hc.1, hc.2.1, hc.2.2])
      simp only [if_neg hb]
      constructor
      · intro h
        exfalso
        split at h
        · simp at h
        · split at h
          · simp at h
          · simp at h
      · intro h
        exact absurd h hb'
  · intro h
    subst h
    simp only [classifyQuality]
    split
    · cases avg with
      | none => simp
      | some a =>
        have hb : ¬ (decide ((1 : ℚ) < 1) && decide (a < 40) && jitterOkForExcellent jitter) = true := by
          simp
        simp only [if_neg hb]
        split
        · simp
        · split <;> simp
    · simp
  · intro h
    subst h
    simp only [classifyQuality]
    split
    · have hb : ¬ (decide (loss < 1) && decide ((40 : ℚ) < 40) && jitterOkForExcellent jitter) = true := by
        simp
      simp only [if_neg hb]
      split
      · simp
      · split <;> simp
    · simp

/-- Claim C9: over the short window, the delay-spike alert fires iff the
window is adequately populated with an average and max RTT, the max
exceeds 3x the average, and the excess over the average exceeds 100 ms;
otherwise the high-loss alert fires iff the window is populated and loss
is at least 10 percent; at most one alert is surfaced per evaluation,
spike taking priority over loss. -/
theorem claim_C9_alerts (count : ℕ) (avg maxPing : Option ℚ) (loss : ℚ)
    (hist : List (Option ℚ)) :
    (computeAlert count avg maxPing loss = some Alert.delaySpike ↔
       ∃ a m, avg = some a ∧ maxPing = some m ∧
         max 5 (SHORT_WINDOW_SIZE / 2) ≤ count ∧ 3 * a < m ∧ 100 < m - a) ∧
    (computeAlert count avg maxPing loss = some Alert.highLoss ↔
       spikeFires count avg maxPing = false ∧
         max 5 (SHORT_WINDOW_SIZE / 2) ≤ count ∧ 10 ≤ loss) ∧
    (spikeFires count avg maxPing = true →
       computeAlert count avg maxPing loss = some Alert.delaySpike) ∧
    (computeAlert count avg maxPing loss = some Alert.delaySpike →
       computeAlert count avg maxPing loss ≠ some Alert.highLoss) ∧
    shortWindowAlert hist =
      computeAlert (compute_recent_stats hist (SHORT_WINDOW_SIZE : ℤ)).count
        (compute_recent_stats hist (SHORT_WINDOW_SIZE : ℤ)).avg_ping
        (compute_recent_stats hist (SHORT_WINDOW_SIZE : ℤ)).max_ping
        (compute_recent_stats hist (SHORT_WINDOW_SIZE : ℤ)).loss_pct := by
  refine ⟨?_, ?_, ?_, ?_, rfl⟩
  · cases avg with
    | none =>
      simp [computeAlert, spikeFires]
    | some a =>
      cases maxPing with
      | none =>
        simp [computeAlert, spikeFires]
      | some m =>
        simp only [computeAlert, spikeFires]
        by_cases hb : (shortPopulated count && decide (m > 3 * a) && decide (m - a > 100)) = true
        · have hb' : max 5 (SHORT_WINDOW_SIZE / 2) ≤ count ∧ 3 * a < m ∧ 100 < m - a := by
            simpa [shortPopulated, and_assoc] using hb
          simp only [if_pos hb]
          exact ⟨fun _ => ⟨a, m, rfl, rfl, hb'.1, hb'.2.1, hb'.2.2⟩, fun _ => by trivial⟩
        · simp only [if_neg hb]
          constructor
          · intro h
            exfalso
            split at h
            · simp at h
            · simp at h
          · rintro ⟨a2, m2, ha2, hm2, h1, h2, h3⟩
            cases ha2
            cases hm2
            exact absurd (by simp [shortPopulated, h1, h2, h3]) hb
  · simp only [computeAlert]
    by_cases hsp : spikeFires count avg maxPing = true
    · simp only [if_pos hsp, hsp]
      constructor
      · intro h
        simp at h
      · rintro ⟨hf, _⟩
        simp at hf
    · have hsp2 : spikeFires count avg maxPing = false := by
        simpa using hsp
      simp only [if_neg hsp, hsp2]
      by_cases hb : (shortPopulated count && decide (loss ≥ 10)) = true
      · have hb' : max 5 (SHORT_WINDOW_SIZE / 2) ≤ count ∧ 10 ≤ loss := by
          simpa [shortPopulated, ge_iff_le] using hb
        simp only [if_pos hb]
        refine ⟨fun _ => ⟨?_, hb'.1, hb'.2⟩, fun _ => by trivial⟩
        simp [hsp2]
      · simp only [if_neg hb]
        constructor
        · intro h
          simp at h
        · rintro ⟨_, h1, h2⟩
          exact absurd (by simp [shortPopulated, h1, ge_iff_le, h2]) hb
  · intro h
    simp [computeAlert, h]
  · intro h hcon
    rw [h] at hcon
    simp at hcon

theorem claim_C4_witness :
    classifyQuality 0 60 0 none none = Quality.unknown ∧
    classifyQuality 100 60 1 (some 30) none ≠ Quality.excellent ∧
    classifyQuality 100 60 0 (some 40) none ≠ Quality.excellent :=
  ⟨(claim_C4_quality 0 60 0 none none).1 (by decide),
   (claim_C4_quality 100 60 1 (some 30) none).2.2.2.1 rfl,
   (claim_C4_quality 100 60 0 (some 40) none).2.2.2.2 rfl⟩

theorem claim_C9_witness :
    computeAlert 10 (some 10) (some 200) 0 = some Alert.delaySpike ∧
    computeAlert 10 (some 10) (some 20) 50 = some Alert.highLoss :=
  ⟨((claim_C9_alerts 10 (some 10) (some 200) 0 []).1).mpr
      ⟨10, 200, rfl, rfl, by decide, by norm_num, by norm_num⟩,
   ((claim_C9_alerts 10 (some 10) (some 20) 50 []).2.1).mpr
      ⟨by norm_num [spikeFires, shortPopulated], by decide, by norm_num⟩⟩


lemma pingCommit_total_sent (s : MonitorState) (o : PingOutcome) :
    (pingCommit s o).total_sent = s.total_sent + 1 := by
  cases o with
  | failure => rfl
  | successNoRtt => rfl
  | success r =>
    by_cases h0 : s.total_success = 0 <;>
      cases hl : s.last_success_rtt_all <;>
        simp [pingCommit, pingOutcomeSuccess, pingOutcomeRtt, h0, hl]

lemma pingCommit_total_recv (s : MonitorState) (o : PingOutcome) :
    (pingCommit s o).total_recv =
      s.total_recv + (if pingOutcomeSuccess o then 1 else 0) := by
  cases o with
  | failure => rfl
  | successNoRtt => rfl
  | success r =>
    by_cases h0 : s.total_success = 0 <;>
      cases hl : s.last_success_rtt_all <;>
        simp [pingCommit, pingOutcomeSuccess, pingOutcomeRtt, h0, hl]

lemma pingCommit_ping_history (s : MonitorState) (o : PingOutcome) :
    (pingCommit s o).ping_history =
      dequeAppend PING_HISTORY_LENGTH s.ping_history (pingOutcomeRtt o) := by
  cases o with
  | failure => simp [pingCommit, pingOutcomeSuccess, pingOutcomeRtt]
  | successNoRtt => simp [pingCommit, pingOutcomeSuccess, pingOutcomeRtt]
  | success r =>
    by_cases h0 : s.total_success = 0 <;>
      cases hl : s.last_success_rtt_all <;>
        simp [pingCommit, pingOutcomeSuccess, pingOutcomeRtt, h0, hl]

lemma pingCommit_loss_history (s : MonitorState) (o : PingOutcome) :
    (pingCommit s o).loss_history =
      dequeAppend LOSS_HISTORY_LENGTH s.loss_history (pingLossValue s o) := by
  cases o with
  | failure =>
    simp [pingCommit, pingOutcomeSuccess, pingOutcomeRtt, pingLossValue]
  | successNoRtt =>
    simp [pingCommit, pingOutcomeSuccess, pingOutcomeRtt, pingLossValue]
  | success r =>
    by_cases h0 : s.total_success = 0 <;>
      cases hl : s.last_success_rtt_all <;>
        simp [pingCommit, pingOutcomeSuccess, pingOutcomeRtt, pingLossValue, h0, hl]

lemma applyCommand_sent_recv (c : Command) (s : MonitorState) :
    ((applyCommand c s).total_sent = s.total_sent ∧
     (applyCommand c s).total_recv = s.total_recv) ∨
    (∃ o, c = Command.pingCycle o) := by
  cases c with
  | pingCycle o => exact Or.inr ⟨o, rfl⟩
  | traceRequest t =>
    refine Or.inl ⟨?_, ?_⟩ <;>
      (simp only [applyCommand, tracerouteEntry]; split <;> rfl)
  | quit => exact Or.inl ⟨rfl, rfl⟩
  | pause => exact Or.inl ⟨rfl, rfl⟩
  | resume => exact Or.inl ⟨rfl, rfl⟩
  | toggleHelp => exact Or.inl ⟨rfl, rfl⟩
  | toggleFull => exact Or.inl ⟨rfl, rfl⟩
  | scrollUp => exact Or.inl ⟨rfl, rfl⟩
  | scrollDown => exact Or.inl ⟨rfl, rfl⟩
  | toggleControls => exact Or.inl ⟨rfl, rfl⟩
  | windowInc => exact Or.inl ⟨rfl, rfl⟩
  | windowDec => exact Or.inl ⟨rfl, rfl⟩
  | traceStream line => exact Or.inl ⟨rfl, rfl⟩
  | traceFinish lines err t => exact Or.inl ⟨rfl, rfl⟩
  | traceLaunchFail msg => exact Or.inl ⟨rfl, rfl⟩

/-- Claim C6: `totalReceived <= totalSent` is preserved by every
operation, both counters are monotonically non-decreasing (no operation
resets or decrements them), each ping cycle increments `totalSent` by 1,
and `totalReceived` is incremented exactly on a successful probe. -/
theorem claim_C6_counters (c : Command) (s : MonitorState)
    (hinv : s.total_recv ≤ s.total_sent) :
    s.total_sent ≤ (applyCommand c s).total_sent ∧
    s.total_recv ≤ (applyCommand c s).total_recv ∧
    (applyCommand c s).total_recv ≤ (applyCommand c s).total_sent ∧
    (∀ o, (applyCommand (Command.pingCycle o) s).total_sent = s.total_sent + 1 ∧
       (applyCommand (Command.pingCycle o) s).total_recv =
         s.total_recv + (if pingOutcomeSuccess o then 1 else 0)) := by
  have hping : ∀ o : PingOutcome,
      (applyCommand (Command.pingCycle o) s).total_sent = s.total_sent + 1 ∧
      (applyCommand (Command.pingCycle o) s).total_recv =
        s.total_recv + (if pingOutcomeSuccess o then 1 else 0) :=
    fun o => ⟨pingCommit_total_sent s o, pingCommit_total_recv s o⟩
  refine ⟨?_, ?_, ?_, hping⟩ <;>
    (rcases applyCommand_sent_recv c s with ⟨h1, h2⟩ | ⟨o, rfl⟩
     · omega
     · obtain ⟨h1, h2⟩ := hping o
       cases hb : pingOutcomeSuccess o <;> simp [hb] at h2 <;> omega)

/-- Claim C7: after every adjustment command the window size lies in
`[MIN_WINDOW (10), C1 (300)]`; the `+` command settles at exactly
`min(windowSize + 10, 300)`, the `-` command at exactly
`max(windowSize - 10, 10)`, and repeating a command at a bound leaves the
window size exactly at that bound. -/
theorem claim_C7_window_clamp (s : MonitorState)
    (h1 : 10 ≤ s.window_size) (h2 : s.window_size ≤ 300) :
    (applyCommand Command.windowInc s).window_size = min (s.window_size + 10) 300 ∧
    (applyCommand Command.windowDec s).window_size = max (s.window_size - 10) 10 ∧
    10 ≤ (applyCommand Command.windowInc s).window_size ∧
    (applyCommand Command.windowInc s).window_size ≤ 300 ∧
    10 ≤ (applyCommand Command.windowDec s).window_size ∧
    (applyCommand Command.windowDec s).window_size ≤ 300 ∧
    (s.window_size = 300 → (applyCommand Command.windowInc s).window_size = 300) ∧
    (s.window_size = 10 → (applyCommand Command.windowDec s).window_size = 10) := by
  have hi : (applyCommand Command.windowInc s).window_size =
      min (s.window_size + 10) 300 := by
    simp [applyCommand, PING_HISTORY_LENGTH]
  have hd : (applyCommand Command.windowDec s).window_size =
      max (s.window_size - 10) 10 := by
    simp only [applyCommand, MIN_WINDOW_SIZE]
    split <;> push_cast <;> omega
  refine ⟨hi, hd, ?_, ?_, ?_, ?_, ?_, ?_⟩
  · rw [hi]; omega
  · rw [hi]; omega
  · rw [hd]; omega
  · rw [hd]; omega
  · intro h; rw [hi, h]; omega
  · intro h; rw [hd, h]; omega

lemma foldl_pingCommit_bounded (os : List PingOutcome) (s : MonitorState)
    (hp : s.ping_history.length ≤ PING_HISTORY_LENGTH)
    (hl : s.loss_history.length ≤ LOSS_HISTORY_LENGTH) :
    (os.foldl pingCommit s).ping_history.length ≤ PING_HISTORY_LENGTH ∧
    (os.foldl pingCommit s).loss_history.length ≤ LOSS_HISTORY_LENGTH := by
  induction os generalizing s with
  | nil => exact ⟨hp, hl⟩
  | cons o t ih =>
    simp only [List.foldl_cons]
    apply ih
    · rw [pingCommit_ping_history, dequeAppend_length]
      exact min_le_left _ _
    · rw [pingCommit_loss_history, dequeAppend_length]
      exact min_le_left _ _

/-- Claim C8: for every sequence of ping-cycle appends from the initial
state both history buffers stay within capacity 300; a single append
keeps any within-capacity state within capacity; and appending to a full
buffer evicts exactly the oldest entry, preserving the relative order of
the remainder (the new buffer is the old tail plus the new entry). -/
theorem claim_C8_history_bound (tgt : List Char) (os : List PingOutcome)
    (s : MonitorState) (o : PingOutcome)
    (hfull : s.ping_history.length = PING_HISTORY_LENGTH)
    (hfull2 : s.loss_history.length = LOSS_HISTORY_LENGTH) :
    ((os.foldl pingCommit (initState tgt)).ping_history.length ≤ PING_HISTORY_LENGTH ∧
     (os.foldl pingCommit (initState tgt)).loss_history.length ≤ LOSS_HISTORY_LENGTH) ∧
    ((pingCommit s o).ping_history.length ≤ PING_HISTORY_LENGTH ∧
     (pingCommit s o).loss_history.length ≤ LOSS_HISTORY_LENGTH) ∧
    (pingCommit s o).ping_history = s.ping_history.tail ++ [pingOutcomeRtt o] ∧
    (∃ v, (pingCommit s o).loss_history = s.loss_history.tail ++ [v]) := by
  refine ⟨foldl_pingCommit_bounded os (initState tgt) (by simp [initState])
      (by simp [initState]), ⟨?_, ?_⟩, ?_, ?_⟩
  · rw [pingCommit_ping_history, dequeAppend_length]
    exact min_le_left _ _
  · rw [pingCommit_loss_history, dequeAppend_length]
    exact min_le_left _ _
  · rw [pingCommit_ping_history]
    exact dequeAppend_full _ _ _ hfull (by norm_num [PING_HISTORY_LENGTH])
  · refine ⟨pingLossValue s o, ?_⟩
    rw [pingCommit_loss_history]
    exact dequeAppend_full _ _ _ hfull2 (by norm_num [LOSS_HISTORY_LENGTH])

theorem claim_C6_witness :
    (initState []).total_sent ≤ (applyCommand Command.pause (initState [])).total_sent ∧
    (applyCommand (Command.pingCycle PingOutcome.failure) (initState [])).total_sent =
      (initState []).total_sent + 1 :=
  ⟨(claim_C6_counters Command.pause (initState []) (by decide)).1,
   ((claim_C6_counters (Command.pingCycle PingOutcome.failure) (initState [])
      (by decide)).2.2.2 PingOutcome.failure).1⟩

theorem claim_C7_witness :
    (applyCommand Command.windowInc (initState [])).window_size =
      min ((initState []).window_size + 10) 300 ∧
    10 ≤ (applyCommand Command.windowDec (initState [])).window_size :=
  ⟨(claim_C7_window_clamp (initState []) (by decide) (by decide)).1,
   (claim_C7_window_clamp (initState []) (by decide) (by decide)).2.2.2.2.1⟩

theorem claim_C8_witness :
    (pingCommit exFullState PingOutcome.failure).ping_history =
      exFullState.ping_history.tail ++ [pingOutcomeRtt PingOutcome.failure] ∧
    ((List.replicate 5 PingOutcome.failure).foldl pingCommit
        (initState [])).ping_history.length ≤ PING_HISTORY_LENGTH :=
  ⟨(claim_C8_history_bound [] [] exFullState PingOutcome.failure
      (by simp [exFullState, initState]) (by simp [exFullState, initState])).2.2.1,
   (claim_C8_history_bound [] (List.replicate 5 PingOutcome.failure) exFullState
      PingOutcome.failure (by simp [exFullState, initState])
      (by simp [exFullState, initState])).1.1⟩
end GmsMonitor
